import Mathlib

/-!
Verification of the group-chat orchestration engine of this repository.

The definitions below are a shallow embedding of
`Backend/python/langchain/agents/agent_group_chat.py`
(class `EnhancedLangChainAgentGroupChat`) together with
`reset_conversation` from
`Backend/python/sk/agents/agent_group_chat.py`
(class `SemanticKernelAgentGroupChat`) and the shared value types of
`Backend/python/shared/core/interfaces.py`.

Modelling conventions:
* Python dicts that map participant names to data are association lists
  (`List (String × _)`) preserving insertion order, as Python dict
  iteration does.
* An agent's `process_message` coroutine is a pure function returning
  `Except String AgentResponse`; a raised exception is the `.error` case
  carrying the exception text.
* The optional Azure routing LLM is an oracle
  `Option (String → List String → Except String String)`; the speaker
  selector reports whether the oracle branch was entered via a Boolean in
  its result.
* `asyncio.sleep`, logging, timestamps and uuid fields are irrelevant to
  the verified properties and are omitted.
-/

/-- `MessageRole` enum of `shared/core/interfaces.py`. -/
inductive MessageRole where
  | user
  | assistant
  | system
deriving DecidableEq

/-- `.value` of a `MessageRole` member. -/
def MessageRole.value : MessageRole → String
  | .user => "user"
  | .assistant => "assistant"
  | .system => "system"

/-- `GroupChatRole` enum of `agent_group_chat.py`. -/
inductive GroupChatRole where
  | facilitator
  | participant
  | observer
deriving DecidableEq

/-- `.value` of a `GroupChatRole` member. -/
def GroupChatRole.value : GroupChatRole → String
  | .facilitator => "facilitator"
  | .participant => "participant"
  | .observer => "observer"

/-- String-keyed metadata map (Python `Dict[str, Any]`; the orchestrator
only ever stores stringly-typed values in the keys the proofs touch, so
values are `String`, numbers rendered with `toString`). -/
abbrev Meta : Type := List (String × String)


/-- `dict.get k` — first binding wins, as keys are unique in Python. -/
def metaGet (m : Meta) (k : String) : Option String :=
  match m with
  | [] => none
  | (k', v) :: rest => if k' == k then some v else metaGet rest k

/-- `d[k] = v` on a dict: replace an existing binding, else append. -/
def metaSet (m : Meta) (k v : String) : Meta :=
  if (List.any m (fun p => p.1 == k)) then
    List.map (fun p => if p.1 == k then (k, v) else p) m
  else m ++ [(k, v)]

/-- `dict.update`: apply every binding of `upd` in order. -/
def metaUpdate (m upd : Meta) : Meta :=
  List.foldl (fun acc p => metaSet acc p.1 p.2) m upd

/-- `AgentMessage` of `shared/core/interfaces.py` (id/timestamp omitted). -/
structure AgentMessage where
  role : MessageRole
  content : String
  metadata : Meta
deriving DecidableEq

/-- `AgentResponse` of `shared/core/interfaces.py`
(usage/session_id/message_id omitted). -/
structure AgentResponse where
  content : String
  agentName : String
  metadata : Meta
deriving DecidableEq

/-- The Agent capability: `process_message(message, history, metadata)`,
with a raised exception modelled as `.error` of the exception text. -/
structure Agent where
  processMessage : String → List AgentMessage → Meta → Except String AgentResponse

/-- The agent registry's `get_agent`: name to agent, or absent. -/
abbrev Registry : Type := String → Option Agent

/-- The optional routing LLM (`self.routing_llm` plus the
`_intelligent_speaker_selection` chain): message and candidate list to a
raw completion, or a raised exception. -/
abbrev RoutingOracle : Type := String → List String → Except String String

/-- `GroupChatConfig` dataclass (fields the orchestration logic reads;
`response_wait_time` only feeds `asyncio.sleep` and is omitted). -/
structure GroupChatConfig where
  name : String
  maxTurns : Nat
  terminationKeyword : String
  enableTerminationKeyword : Bool
deriving DecidableEq

/-- `GroupChatParticipantInfo` dataclass. -/
structure GroupChatParticipantInfo where
  agentName : String
  role : GroupChatRole
  priority : Int
  maxConsecutiveTurns : Nat
deriving DecidableEq

/-- Mutable state of an `EnhancedLangChainAgentGroupChat` /
`SemanticKernelAgentGroupChat` instance. -/
structure ChatState where
  participants : List (String × GroupChatParticipantInfo)
  conversationHistory : List AgentMessage
  currentSpeaker : Option String
  turnCount : Nat
  consecutiveTurns : List (String × Nat)
  conversationActive : Bool
deriving DecidableEq

/-- Association-list lookup (Python `dict[k]` / `dict.get(k)`). -/
def assocGet {α : Type} (m : List (String × α)) (k : String) : Option α :=
  match m with
  | [] => none
  | (k', v) :: rest => if k' == k then some v else assocGet rest k

/-- `self.consecutive_turns.get(name, 0)`. -/
def countersGet (m : List (String × Nat)) (k : String) : Nat :=
  (assocGet m k).getD 0

/-- Does the character list start with the given needle? -/
def charsStart : List Char → List Char → Bool
  | [], _ => true
  | _ :: _, [] => false
  | c :: cs, d :: ds => c == d && charsStart cs ds

/-- Python's substring test `needle in haystack` on character lists. -/
def charsHave (needle : List Char) : List Char → Bool
  | [] => charsStart needle []
  | c :: rest => charsStart needle (c :: rest) || charsHave needle rest

/-- Python's `needle in haystack` on strings (case-sensitive; callers
lower-case both sides first, as the source does). -/
def strContains (haystack needle : String) : Bool :=
  charsHave needle.data haystack.data

/-- Python `str.lower()` (ASCII case folding, as the keyword heuristics
need).  Defined on the character list so the kernel can evaluate it. -/
def strLower (s : String) : String :=
  ⟨s.data.map Char.toLower⟩

/-- Python `str.strip()`: drop whitespace from both ends. -/
def pyStrip (s : String) : String :=
  ⟨((s.data.dropWhile Char.isWhitespace).reverse.dropWhile Char.isWhitespace).reverse⟩

/-- Python `str.replace("\n", " ")` for the single-character pattern:
map every newline to a space. -/
def swapNewline (s : String) : String :=
  ⟨s.data.map (fun c => cond (c == '\n') ' ' c)⟩

/-- Python `s[:n]`. -/
def strTake (s : String) (n : Nat) : String :=
  ⟨s.data.take n⟩

/-- Keyword list of the people-query heuristic
(`_select_next_speaker`). -/
def peopleKeywords : List String :=
  ["who", "person", "people", "team", "member", "employee", "colleague"]

/-- Keyword list of the knowledge-query heuristic
(`_select_next_speaker`). -/
def knowledgeKeywords : List String :=
  ["what", "how", "explain", "documentation", "knowledge", "information", "guide", "tutorial"]

/-- `get_active_participants`: every non-observer, in directory order. -/
def activeParticipants (participants : List (String × GroupChatParticipantInfo)) : List String :=
  (participants.filter (fun p => p.2.role ≠ GroupChatRole.observer)).map (fun p => p.1)

/-- `self.participants[name].max_consecutive_turns` (names handed in are
directory keys, so the default is never reached). -/
def maxConsecOf (participants : List (String × GroupChatParticipantInfo)) (name : String) : Nat :=
  ((assocGet participants name).map (fun i => i.maxConsecutiveTurns)).getD 0

/-- `self.participants[name].priority` (same remark on the default). -/
def priorityOf (participants : List (String × GroupChatParticipantInfo)) (name : String) : Int :=
  ((assocGet participants name).map (fun i => i.priority)).getD 0

/-- `self.participants[name].role.value` (same remark on the default). -/
def roleValueOf (participants : List (String × GroupChatParticipantInfo)) (name : String) : String :=
  ((assocGet participants name).map (fun i => i.role.value)).getD ""

/-- `for name in active: self.consecutive_turns[name] = 0`. -/
def resetActiveCounters (counters : List (String × Nat)) (active : List String) : List (String × Nat) :=
  counters.map (fun p => cond (active.contains p.1) (p.1, 0) p)

/-- Python `list.index` (first hit; callers guarantee membership). -/
def listIndex (x : String) : List String → Nat
  | [] => 0
  | y :: ys => if y == x then 0 else listIndex x ys + 1

/-- Python `max(names, key=lambda n: priority(n))`: first element of
maximal priority in iteration order (CPython keeps the current best on
ties). Callers guarantee a non-empty list. -/
def maxByPriority (participants : List (String × GroupChatParticipantInfo)) :
    List String → Option String
  | [] => none
  | n :: rest =>
      some (rest.foldl
        (fun best m => if priorityOf participants best < priorityOf participants m then m else best)
        n)

/-- Result of `_select_next_speaker`: the chosen name, the possibly reset
`consecutive_turns` map, and whether the LLM-routing branch ran. -/
structure SelectionResult where
  speaker : String
  counters : List (String × Nat)
  llmConsulted : Bool
deriving DecidableEq

/-- Body of `_select_next_speaker` of `EnhancedLangChainAgentGroupChat`
(lines 175-209) after the availability computation: the two keyword
heuristics, the optional LLM branch (whose exceptions fall through to
the default), rotation after the current speaker, and the priority
fallback.  Every branch returns the candidate counters unchanged. -/
def selectFrom (participants : List (String × GroupChatParticipantInfo))
    (counters1 : List (String × Nat)) (avail : List String) (llm : Option RoutingOracle)
    (message : String) (currentSpeaker : Option String) : SelectionResult :=
  let messageLower := strLower message
  let peopleHit :=
    if peopleKeywords.any (fun k => strContains messageLower k) then
      (avail.filter (fun n => strContains (strLower n) "people")).head?
    else none
  match peopleHit with
  | some n => ⟨n, counters1, false⟩
  | none =>
    let knowledgeHit :=
      if knowledgeKeywords.any (fun k => strContains messageLower k) then
        (avail.filter (fun n => strContains (strLower n) "knowledge")).head?
      else none
    match knowledgeHit with
    | some n => ⟨n, counters1, false⟩
    | none =>
      let consulted : Bool := llm.isSome && decide (1 < avail.length)
      let llmPick : Option String :=
        match llm with
        | some oracle =>
          if 1 < avail.length then
            match oracle message avail with
            | Except.ok raw => if avail.contains (pyStrip raw) then some (pyStrip raw) else none
            | Except.error _ => none
          else none
        | none => none
      match llmPick with
      | some n => ⟨n, counters1, consulted⟩
      | none =>
        match currentSpeaker with
        | some cs =>
          if avail.contains cs then
            ⟨avail.getD ((listIndex cs avail + 1) % avail.length) cs, counters1, consulted⟩
          else
            ⟨(maxByPriority participants avail).getD cs, counters1, consulted⟩
        | none =>
          ⟨(maxByPriority participants avail).getD "", counters1, consulted⟩

/-- `_select_next_speaker` continued: the guard on an empty active set
and the availability computation with its saturation reset, handing the
candidate list to `selectFrom`. -/
def selectNextSpeaker (participants : List (String × GroupChatParticipantInfo))
    (counters : List (String × Nat)) (llm : Option RoutingOracle)
    (message : String) (currentSpeaker : Option String) :
    Except String SelectionResult :=
  let active := activeParticipants participants
  if active.isEmpty then
    Except.error "No active participants available"
  else
    let avail0 := active.filter (fun n => countersGet counters n < maxConsecOf participants n)
    let counters1 := if avail0.isEmpty then resetActiveCounters counters active else counters
    let avail := if avail0.isEmpty then active else avail0
    Except.ok (selectFrom participants counters1 avail llm message currentSpeaker)

/-- Lines 280-284 of `send_message`: bump the chosen speaker's
consecutive-turn counter and zero every other participant's counter. -/
def updateCounters (counters : List (String × Nat)) (speaker : String) : List (String × Nat) :=
  counters.map (fun p => cond (p.1 == speaker) (p.1, p.2 + 1) (p.1, 0))

/-- `_should_terminate` of `EnhancedLangChainAgentGroupChat`
(lines 426-435). -/
def shouldTerminate (cfg : GroupChatConfig) (turnCount : Nat) (message : String) : Bool :=
  if cfg.maxTurns ≤ turnCount then true
  else if cfg.enableTerminationKeyword then
    strContains (strLower message) (strLower cfg.terminationKeyword)
  else false

/-- The user `AgentMessage` appended at the top of `send_message`. -/
def userMessage (cfg : GroupChatConfig) (message : String) (sender : Option String) : AgentMessage :=
  ⟨MessageRole.user, message, [("sender", sender.getD "User"), ("group_chat", cfg.name)]⟩

/-- The metadata dict handed to `agent.process_message` inside the
sequential loop. -/
def turnMetadata (cfg : GroupChatConfig) (participants : List (String × GroupChatParticipantInfo))
    (speaker : String) (turnCount : Nat) : Meta :=
  [("group_chat", cfg.name), ("turn", toString turnCount),
   ("speaker_role", roleValueOf participants speaker),
   ("total_participants", toString participants.length)]

/-- The error response synthesized by `send_message`'s `except` arm. -/
def groupChatErrorResponse (e : String) : AgentResponse :=
  ⟨"Group chat error: " ++ e, "system", [("error", e)]⟩

/-- Lines 305-310 of `send_message`: the group-chat metadata merged into
the agent's response before it is collected. -/
def loopResponse (cfg : GroupChatConfig) (participants : List (String × GroupChatParticipantInfo))
    (speaker : String) (turn : Nat) (resp : AgentResponse) : AgentResponse :=
  let meta1 := metaUpdate resp.metadata
      [("turn", toString turn), ("group_chat", cfg.name),
       ("speaker_role", roleValueOf participants speaker),
       ("total_participants", toString participants.length)]
  { resp with metadata := meta1 }

/-- The assistant `AgentMessage` recording a reply in the history
(lines 315-323 of `send_message`). -/
def assistantMessage (speaker : String) (turn : Nat) (content : String) : AgentMessage :=
  ⟨MessageRole.assistant, content, [("agent", speaker), ("turn", toString turn)]⟩

/-- The `while` loop of `send_message` (lines 272-335) together with the
surrounding `try/except` (the `except` arm appends a synthesized error
response and leaves the loop).  `fuel` bounds the iteration count; each
iteration requires `turn_count < max_turns` and increments `turn_count`,
so `fuel = cfg.maxTurns` always suffices and the cut-off is never the
reason the loop stops. -/
def sendLoop (cfg : GroupChatConfig) (registry : Registry) (llm : Option RoutingOracle) :
    Nat → ChatState → String → List AgentResponse → List AgentResponse × ChatState
  | 0, st, _, responses => (responses, st)
  | fuel + 1, st, currentMessage, responses =>
    if st.turnCount < cfg.maxTurns ∧ st.conversationActive then
      let st1 := { st with turnCount := st.turnCount + 1 }
      match selectNextSpeaker st1.participants st1.consecutiveTurns llm currentMessage st1.currentSpeaker with
      | Except.error e => (responses ++ [groupChatErrorResponse e], st1)
      | Except.ok sel =>
        let st2 := { st1 with
          currentSpeaker := some sel.speaker,
          consecutiveTurns := updateCounters sel.counters sel.speaker }
        match registry sel.speaker with
        | none => sendLoop cfg registry llm fuel st2 currentMessage responses
        | some agent =>
          match agent.processMessage currentMessage st2.conversationHistory
              (turnMetadata cfg st2.participants sel.speaker st2.turnCount) with
          | Except.error e => (responses ++ [groupChatErrorResponse e], st2)
          | Except.ok resp =>
            let resp1 := loopResponse cfg st2.participants sel.speaker st2.turnCount resp
            let responses1 := responses ++ [resp1]
            let st3 := { st2 with conversationHistory := st2.conversationHistory ++
                [assistantMessage sel.speaker st2.turnCount resp.content] }
            if shouldTerminate cfg st3.turnCount resp.content then
              (responses1, { st3 with conversationActive := false })
            else
              sendLoop cfg registry llm fuel st3 resp.content responses1
    else (responses, st)

/-- Lines 260-269 of `send_message`: raise the `conversation_active`
flag and append the inbound user message before the loop starts.
`initialize` is modelled as already performed: the routing LLM is the
`llm` argument of the caller. -/
def sendEntry (cfg : GroupChatConfig) (st : ChatState) (message : String)
    (sender : Option String) : ChatState :=
  { st with
    conversationActive := true,
    conversationHistory := st.conversationHistory ++ [userMessage cfg message sender] }

/-- `send_message` (lines 246-349) continued: the no-participants
precondition, the loop, and the `finally` clause clearing
`conversation_active`. -/
def sendMessage (cfg : GroupChatConfig) (registry : Registry) (llm : Option RoutingOracle)
    (st : ChatState) (message : String) (sender : Option String) :
    Except String (List AgentResponse × ChatState) :=
  if st.participants.isEmpty then
    Except.error "No participants in group chat"
  else
    let result := sendLoop cfg registry llm cfg.maxTurns (sendEntry cfg st message sender) message []
    Except.ok (result.1, { result.2 with conversationActive := false })

/-- `broadcast_message` (lines 351-424): the same original message goes
to every active participant in order; each reply (but not each error) is
appended to the shared history before the next participant is invoked;
`turn_count` is incremented exactly once. -/
def broadcastMessage (cfg : GroupChatConfig) (registry : Registry)
    (st : ChatState) (message : String) (sender : Option String) :
    Except String (List AgentResponse × ChatState) :=
  let active := activeParticipants st.participants
  if active.isEmpty then
    Except.error "No active participants available"
  else
    let hist0 := st.conversationHistory ++
      [⟨MessageRole.user, message,
        [("sender", sender.getD "User"), ("group_chat", cfg.name), ("mode", "broadcast")]⟩]
    let turn := st.turnCount + 1
    let step := fun (acc : List AgentResponse × List AgentMessage) (agentName : String) =>
      match registry agentName with
      | none => acc
      | some agent =>
        match agent.processMessage message acc.2
            [("group_chat", cfg.name), ("turn", toString turn),
             ("speaker_role", roleValueOf st.participants agentName),
             ("mode", "broadcast"), ("total_participants", toString active.length)] with
        | Except.ok resp =>
          let meta1 := metaUpdate resp.metadata
              [("turn", toString turn), ("group_chat", cfg.name),
               ("speaker_role", roleValueOf st.participants agentName),
               ("total_participants", toString active.length), ("mode", "broadcast")]
          let resp1 : AgentResponse := { resp with metadata := meta1 }
          (acc.1 ++ [resp1],
           acc.2 ++ [⟨MessageRole.assistant, resp.content,
             [("agent", agentName), ("turn", toString turn), ("mode", "broadcast")]⟩])
        | Except.error e =>
          (acc.1 ++ [⟨"Error from " ++ agentName ++ ": " ++ e, agentName,
              [("error", e), ("mode", "broadcast")]⟩], acc.2)
    let final := active.foldl step ([], hist0)
    Except.ok (final.1, { st with conversationHistory := final.2, turnCount := turn })

/-- `reset_conversation` of `SemanticKernelAgentGroupChat`
(lines 453-460). -/
def resetConversation (st : ChatState) : ChatState :=
  { st with
    conversationHistory := [],
    currentSpeaker := none,
    turnCount := 0,
    consecutiveTurns := st.participants.map (fun p => (p.1, 0)),
    conversationActive := false }

/-- Python-`or` for an optional metadata value: `None` and the empty
string are falsy. -/
def orElseStr (a : Option String) (b : String) : String :=
  match a with
  | some s => if s == "" then b else s
  | none => b

/-- One `{role}: {snippet}` transcript line of `generate_summary`,
including the 1000-character per-message cap. -/
def transcriptLine (msg : AgentMessage) : String :=
  let role := orElseStr (metaGet msg.metadata "agent")
      (orElseStr (metaGet msg.metadata "sender") msg.role.value)
  let snippet := swapNewline (pyStrip msg.content)
  let snippet1 := if 1000 < snippet.length then strTake snippet 997 ++ "..." else snippet
  role ++ ": " ++ snippet1

/-- Transcript accumulation loop of `generate_summary`: stop at the
first line that would push the running character total past the
limit. -/
def transcriptLinesFrom (limit : Nat) : List AgentMessage → Nat → List String
  | [], _ => []
  | msg :: rest, current =>
    let line := transcriptLine msg
    if limit < current + line.length then []
    else line :: transcriptLinesFrom limit rest (current + line.length + 1)

/-- Python `xs[-n:]` (for `n = 0` this is the whole list). -/
def lastN {α : Type} (n : Nat) (xs : List α) : List α :=
  if n == 0 then xs else xs.drop (xs.length - n)

/-- Python `sep.join(xs)`. -/
def joinSep (sep : String) : List String → String
  | [] => ""
  | [x] => x
  | x :: x' :: xs => x ++ sep ++ joinSep sep (x' :: xs)

/-- The summary template shared by the heuristic and fallback tiers of
`generate_summary` (the source differs only in the parenthesised tag of
the first line).  Grouped to the right for lemma reuse; Python string
concatenation is associative so the grouping is immaterial. -/
def summaryTemplate (header : String) (st : ChatState) (transcript : String) : String :=
  header ++
    ("Participants: " ++
      (joinSep ", " (st.participants.map (fun p => p.1)) ++
        ("\n" ++
          ("Turns: " ++
            (toString st.turnCount ++
              ("\n" ++
                ("Recent Excerpt (truncated):\n" ++ strTake transcript 1500)))))))

/-- `generate_summary` (lines 448-511).  `model` is
`self.summary_llm or self.routing_llm`; its `.error` case is the caught
exception of the LLM tier, which the source downgrades to the
fallback template. -/
def generateSummary (st : ChatState) (model : Option (String → Except String String))
    (maxMessages charLimit : Nat) : String :=
  if st.conversationHistory.isEmpty then "No conversation yet."
  else
    let relevant := lastN maxMessages st.conversationHistory
    let transcript := joinSep "\n" (transcriptLinesFrom charLimit relevant 0)
    match model with
    | none => summaryTemplate "Conversation Summary (heuristic)\n" st transcript
    | some llm =>
      match llm transcript with
      | Except.ok out => pyStrip out
      | Except.error _ => summaryTemplate "Conversation Summary (fallback)\n" st transcript

/-- Run `sendMessage`, keeping the prior state and an empty response
list when it raises.  Only used to phrase closed concrete statements. -/
def runSend (cfg : GroupChatConfig) (registry : Registry) (llm : Option RoutingOracle)
    (st : ChatState) (message : String) : List AgentResponse × ChatState :=
  match sendMessage cfg registry llm st message none with
  | Except.ok r => r
  | Except.error _ => ([], st)

/-- Run `broadcastMessage`, keeping the prior state and an empty
response list when it raises.  Only used to phrase closed concrete
statements. -/
def runBroadcast (cfg : GroupChatConfig) (registry : Registry)
    (st : ChatState) (message : String) : List AgentResponse × ChatState :=
  match broadcastMessage cfg registry st message none with
  | Except.ok r => r
  | Except.error _ => ([], st)

/-! ### Basic lemmas about the string and map helpers -/

theorem charsStart_self : ∀ l : List Char, charsStart l l = true
  | [] => rfl
  | c :: cs => by simp [charsStart, charsStart_self cs]

theorem charsStart_extend : ∀ (nd hs t : List Char),
    charsStart nd hs = true → charsStart nd (hs ++ t) = true
  | [], _, _, _ => rfl
  | _ :: _, [], _, h => by simp [charsStart] at h
  | c :: cs, d :: ds, t, h => by
      simp only [charsStart, Bool.and_eq_true] at h ⊢
      exact ⟨h.1, charsStart_extend cs ds t h.2⟩

theorem charsHave_nil_needle : ∀ hs : List Char, charsHave [] hs = true
  | [] => rfl
  | _ :: _ => by simp [charsHave, charsStart]

theorem charsHave_left : ∀ (a b nd : List Char),
    charsHave nd a = true → charsHave nd (a ++ b) = true
  | [], b, nd, h => by
      cases nd with
      | nil => simpa using charsHave_nil_needle b
      | cons c cs => simp [charsHave, charsStart] at h
  | a :: as, b, nd, h => by
      simp only [charsHave, Bool.or_eq_true] at h
      rcases h with h | h
      · simp only [List.cons_append, charsHave, Bool.or_eq_true]
        exact Or.inl (charsStart_extend nd (a :: as) b h)
      · simp only [List.cons_append, charsHave, Bool.or_eq_true]
        exact Or.inr (charsHave_left as b nd h)

theorem charsHave_right : ∀ (a b nd : List Char),
    charsHave nd b = true → charsHave nd (a ++ b) = true
  | [], _, _, h => h
  | a :: as, b, nd, h => by
      simp only [List.cons_append, charsHave, Bool.or_eq_true]
      exact Or.inr (charsHave_right as b nd h)

theorem charsHave_self : ∀ l : List Char, charsHave l l = true
  | [] => rfl
  | c :: cs => by simp [charsHave, charsStart_self]

theorem strContains_append_left (s t nd : String) (h : strContains s nd = true) :
    strContains (s ++ t) nd = true := by
  unfold strContains at h ⊢
  rw [String.data_append]
  exact charsHave_left _ _ _ h

theorem strContains_append_right (s t nd : String) (h : strContains t nd = true) :
    strContains (s ++ t) nd = true := by
  unfold strContains at h ⊢
  rw [String.data_append]
  exact charsHave_right _ _ _ h

theorem strContains_self (s : String) : strContains s s = true :=
  charsHave_self s.data

theorem joinSep_contains (sep : String) : ∀ (xs : List String) (x : String),
    x ∈ xs → strContains (joinSep sep xs) x = true
  | [], x, h => absurd h (List.not_mem_nil x)
  | [_], x, h => by
      rcases List.mem_singleton.mp h with rfl
      simpa [joinSep] using strContains_self x
  | y :: y' :: ys, x, h => by
      rcases List.mem_cons.mp h with rfl | h
      · exact strContains_append_left _ _ _ (strContains_append_left _ _ _ (strContains_self x))
      · exact strContains_append_right _ _ _ (joinSep_contains sep (y' :: ys) x h)

theorem countersGet_reset_zero : ∀ (counters : List (String × Nat)) (active : List String)
    (n : String), n ∈ active → countersGet (resetActiveCounters counters active) n = 0
  | [], _, _, _ => rfl
  | (k, v) :: rest, active, n, h => by
      have ih := countersGet_reset_zero rest active n h
      by_cases hk : k = n
      · subst hk
        have hc : active.contains k = true := by simpa using h
        simp only [resetActiveCounters, List.map_cons, hc, cond_true] at ih ⊢
        simp [countersGet, assocGet]
      · have hkn : (k == n) = false := by simpa using hk
        simp only [resetActiveCounters, List.map_cons] at ih ⊢
        cases hc : active.contains k with
        | true =>
            simp only [hc, cond_true]
            simpa [countersGet, assocGet, hkn] using ih
        | false =>
            simp only [hc, cond_false]
            simpa [countersGet, assocGet, hkn] using ih

theorem countersGet_update_other : ∀ (counters : List (String × Nat)) (speaker n : String),
    n ≠ speaker → countersGet (updateCounters counters speaker) n = 0
  | [], _, _, _ => rfl
  | (k, v) :: rest, speaker, n, h => by
      have ih := countersGet_update_other rest speaker n h
      simp only [updateCounters, List.map_cons] at ih ⊢
      cases hks : (k == speaker) with
      | true =>
          have hkn : (k == n) = false := by
            have : k = speaker := by simpa using hks
            subst this
            simp only [beq_eq_false_iff_ne, ne_eq]
            exact fun e => h e.symm
          simp only [hks, cond_true]
          simpa [countersGet, assocGet, hkn] using ih
      | false =>
          simp only [hks, cond_false]
          cases hkn : (k == n) with
          | true => simp [countersGet, assocGet, hkn]
          | false => simpa [countersGet, assocGet, hkn] using ih

theorem countersGet_update_self : ∀ (counters : List (String × Nat)) (speaker : String) (v : Nat),
    assocGet counters speaker = some v →
    countersGet (updateCounters counters speaker) speaker = v + 1
  | [], _, _, h => by simp [assocGet] at h
  | (k, w) :: rest, speaker, v, h => by
      simp only [updateCounters, List.map_cons]
      cases hks : (k == speaker) with
      | true =>
          have hv : w = v := by
            have hk : k = speaker := by simpa using hks
            subst hk
            simpa [assocGet] using h
          subst hv
          simp [hks, countersGet, assocGet]
      | false =>
          have h' : assocGet rest speaker = some v := by
            simpa [assocGet, hks] using h
          have ih := countersGet_update_self rest speaker v h'
          simp only [updateCounters] at ih
          simpa [hks, countersGet, assocGet] using ih

theorem countersGet_zeroed : ∀ (participants : List (String × GroupChatParticipantInfo))
    (n : String), countersGet (participants.map (fun p => (p.1, 0))) n = 0
  | [], _ => rfl
  | (k, _) :: rest, n => by
      cases hk : (k == n) with
      | true => simp [countersGet, assocGet, hk]
      | false => simpa [countersGet, assocGet, hk] using countersGet_zeroed rest n

/-! ### Lemmas about the sequential turn loop -/

theorem sendLoop_length_le (cfg : GroupChatConfig) (registry : Registry) (llm : Option RoutingOracle) :
    ∀ (fuel : Nat) (st : ChatState) (m : String) (acc : List AgentResponse),
    (sendLoop cfg registry llm fuel st m acc).1.length ≤ acc.length + fuel
  | 0, st, m, acc => by simp [sendLoop]
  | fuel + 1, st, m, acc => by
      simp only [sendLoop]
      split
      · split
        · simp
        · split
          · refine le_trans (sendLoop_length_le cfg registry llm fuel _ _ _) ?_
            omega
          · split
            · simp
            · split
              · simp
              · refine le_trans (sendLoop_length_le cfg registry llm fuel _ _ _) ?_
                simp
                omega
      · simp

theorem sendLoop_acc_le (cfg : GroupChatConfig) (registry : Registry) (llm : Option RoutingOracle) :
    ∀ (fuel : Nat) (st : ChatState) (m : String) (acc : List AgentResponse),
    acc.length ≤ (sendLoop cfg registry llm fuel st m acc).1.length
  | 0, _, _, _ => by simp [sendLoop]
  | fuel + 1, st, m, acc => by
      simp only [sendLoop]
      split
      · split
        · simp
        · split
          · exact sendLoop_acc_le cfg registry llm fuel _ m acc
          · split
            · simp
            · split
              · simp
              · refine le_trans ?_ (sendLoop_acc_le cfg registry llm fuel _ _ _)
                simp
      · simp

theorem sendLoop_turnCount_le (cfg : GroupChatConfig) (registry : Registry) (llm : Option RoutingOracle) :
    ∀ (fuel : Nat) (st : ChatState) (m : String) (acc : List AgentResponse),
    (sendLoop cfg registry llm fuel st m acc).2.turnCount ≤ max st.turnCount cfg.maxTurns
  | 0, st, m, acc => by simp [sendLoop]
  | fuel + 1, st, m, acc => by
      simp only [sendLoop]
      split
      next hcond =>
        split
        · simp
          omega
        · split
          · refine le_trans (sendLoop_turnCount_le cfg registry llm fuel _ _ _) ?_
            simp
            omega
          · split
            · simp
              omega
            · split
              · simp
                omega
              · refine le_trans (sendLoop_turnCount_le cfg registry llm fuel _ _ _) ?_
                simp
                omega
      · simp

/-- At most one participant has a nonzero consecutive-turn counter, and
only the current speaker may be that participant. -/
def speakerExclusive (st : ChatState) : Prop :=
  ∀ n, st.currentSpeaker ≠ some n → countersGet st.consecutiveTurns n = 0

theorem exclusive_after_update (counters : List (String × Nat)) (speaker : String) :
    ∀ n, (some speaker : Option String) ≠ some n →
      countersGet (updateCounters counters speaker) n = 0 := by
  intro n hn
  refine countersGet_update_other counters speaker n ?_
  intro e
  exact hn (by rw [e])

theorem sendLoop_exclusive (cfg : GroupChatConfig) (registry : Registry) (llm : Option RoutingOracle) :
    ∀ (fuel : Nat) (st : ChatState) (m : String) (acc : List AgentResponse),
    speakerExclusive st → speakerExclusive (sendLoop cfg registry llm fuel st m acc).2
  | 0, st, m, acc, h => h
  | fuel + 1, st, m, acc, h => by
      simp only [sendLoop]
      split
      · split
        · exact fun n hn => h n hn
        · split
          · exact sendLoop_exclusive cfg registry llm fuel _ m acc
              (fun n hn => exclusive_after_update _ _ n hn)
          · split
            · exact fun n hn => exclusive_after_update _ _ n hn
            · split
              · exact fun n hn => exclusive_after_update _ _ n hn
              · exact sendLoop_exclusive cfg registry llm fuel _ _ _
                  (fun n hn => exclusive_after_update _ _ n hn)
      · exact h

/-! ### Lemmas about the speaker selector -/

theorem maxByPriority_foldl_mem (participants : List (String × GroupChatParticipantInfo)) :
    ∀ (rest : List String) (acc : String) (l : List String),
    acc ∈ l → (∀ x ∈ rest, x ∈ l) →
    rest.foldl
      (fun best m => if priorityOf participants best < priorityOf participants m then m else best)
      acc ∈ l
  | [], acc, l, h, _ => h
  | x :: xs, acc, l, h, hx => by
      simp only [List.foldl_cons]
      refine maxByPriority_foldl_mem participants xs _ l ?_
        (fun y hy => hx y (List.mem_cons_of_mem _ hy))
      by_cases hc : priorityOf participants acc < priorityOf participants x
      · simpa [hc] using hx x (List.mem_cons_self x xs)
      · simpa [hc] using h

theorem maxByPriority_mem (participants : List (String × GroupChatParticipantInfo)) :
    ∀ (names : List String), names ≠ [] →
    ∃ m, maxByPriority participants names = some m ∧ m ∈ names
  | [], h => absurd rfl h
  | n :: rest, _ =>
      ⟨_, rfl, maxByPriority_foldl_mem participants rest n (n :: rest)
        (List.mem_cons_self n rest) (fun _ hx => List.mem_cons_of_mem _ hx)⟩

theorem selectFrom_counters (participants : List (String × GroupChatParticipantInfo))
    (counters1 : List (String × Nat)) (avail : List String) (llm : Option RoutingOracle)
    (message : String) (cs : Option String) :
    (selectFrom participants counters1 avail llm message cs).counters = counters1 := by
  simp only [selectFrom]
  split
  · rfl
  · split
    · rfl
    · split
      · rfl
      · split
        · split
          · rfl
          · rfl
        · rfl

theorem selectFrom_speaker_mem (participants : List (String × GroupChatParticipantInfo))
    (counters1 : List (String × Nat)) (avail : List String) (llm : Option RoutingOracle)
    (message : String) (cs : Option String) (h : avail ≠ []) :
    (selectFrom participants counters1 avail llm message cs).speaker ∈ avail := by
  simp only [selectFrom]
  split
  next n heq =>
    split at heq
    · exact List.mem_of_mem_filter (List.mem_of_mem_head? (Option.mem_def.mpr heq))
    · simp at heq
  next =>
    split
    next n heq =>
      split at heq
      · exact List.mem_of_mem_filter (List.mem_of_mem_head? (Option.mem_def.mpr heq))
      · simp at heq
    next =>
      split
      next n heq =>
        split at heq
        next oracle =>
          split at heq
          · split at heq
            next raw _ =>
              split at heq
              next hc =>
                rcases Option.some.inj heq with rfl
                simpa using hc
              next => simp at heq
            next => simp at heq
          · simp at heq
        next => simp at heq
      next =>
        split
        next cs' =>
          split
          next hc =>
            have hlen : 0 < avail.length := List.length_pos.mpr h
            have hidx : (listIndex cs' avail + 1) % avail.length < avail.length :=
              Nat.mod_lt _ hlen
            rw [List.getD_eq_getElem avail _ hidx]
            exact List.getElem_mem hidx
          next =>
            rcases maxByPriority_mem participants avail h with ⟨m, hm, hmem⟩
            simpa [hm] using hmem
        next =>
          rcases maxByPriority_mem participants avail h with ⟨m, hm, hmem⟩
          simpa [hm] using hmem

theorem selectNextSpeaker_ok (participants : List (String × GroupChatParticipantInfo))
    (counters : List (String × Nat)) (llm : Option RoutingOracle)
    (message : String) (cs : Option String)
    (h : activeParticipants participants ≠ []) :
    ∃ sel, selectNextSpeaker participants counters llm message cs = Except.ok sel ∧
      sel.speaker ∈ activeParticipants participants := by
  have hne : (activeParticipants participants).isEmpty = false := by simp [h]
  have hmain : selectNextSpeaker participants counters llm message cs =
      Except.ok (selectFrom participants
        (if ((activeParticipants participants).filter
            (fun n => countersGet counters n < maxConsecOf participants n)).isEmpty then
          resetActiveCounters counters (activeParticipants participants) else counters)
        (if ((activeParticipants participants).filter
            (fun n => countersGet counters n < maxConsecOf participants n)).isEmpty then
          activeParticipants participants
        else (activeParticipants participants).filter
            (fun n => countersGet counters n < maxConsecOf participants n))
        llm message cs) := by
    simp only [selectNextSpeaker, hne, Bool.false_eq_true, if_false]
  refine ⟨_, hmain, ?_⟩
  by_cases h0 : ((activeParticipants participants).filter
      (fun n => countersGet counters n < maxConsecOf participants n)).isEmpty = true
  · simp only [h0, if_true]
    exact selectFrom_speaker_mem _ _ _ _ _ _ h
  · have h0' : (activeParticipants participants).filter
        (fun n => countersGet counters n < maxConsecOf participants n) ≠ [] := by
      simpa [List.isEmpty_iff] using h0
    simp only [h0, if_false]
    exact List.mem_of_mem_filter (selectFrom_speaker_mem _ _ _ _ _ _ h0')

theorem selectNextSpeaker_error_iff (participants : List (String × GroupChatParticipantInfo))
    (counters : List (String × Nat)) (llm : Option RoutingOracle)
    (message : String) (cs : Option String) :
    (∃ e, selectNextSpeaker participants counters llm message cs = Except.error e) ↔
      activeParticipants participants = [] := by
  constructor
  · rintro ⟨e, he⟩
    by_contra hne
    rcases selectNextSpeaker_ok participants counters llm message cs hne with ⟨sel, hok, _⟩
    rw [hok] at he
    exact Except.noConfusion he
  · intro h
    refine ⟨"No active participants available", ?_⟩
    simp [selectNextSpeaker, h]

theorem selectNextSpeaker_saturated (participants : List (String × GroupChatParticipantInfo))
    (counters : List (String × Nat)) (llm : Option RoutingOracle)
    (message : String) (cs : Option String)
    (hne : activeParticipants participants ≠ [])
    (hsat : ∀ n ∈ activeParticipants participants,
      maxConsecOf participants n ≤ countersGet counters n) :
    selectNextSpeaker participants counters llm message cs =
      Except.ok (selectFrom participants
        (resetActiveCounters counters (activeParticipants participants))
        (activeParticipants participants) llm message cs) := by
  have hnef : (activeParticipants participants).isEmpty = false := by simp [hne]
  have h0 : (activeParticipants participants).filter
      (fun n => countersGet counters n < maxConsecOf participants n) = [] := by
    rw [List.filter_eq_nil_iff]
    intro a ha
    simpa using Nat.not_lt.mpr (hsat a ha)
  simp [selectNextSpeaker, hnef, h0]

/-! ### Concrete fixtures for witnesses and counterexamples -/

/-- A participant entry with `add_participant`'s default role, priority
and `max_consecutive_turns`. -/
def plainInfo (n : String) : GroupChatParticipantInfo :=
  ⟨n, GroupChatRole.participant, 1, 3⟩

/-- The two-participant directory of the keyword short-circuit example. -/
def routeParticipants : List (String × GroupChatParticipantInfo) :=
  [("people_x", plainInfo "people_x"), ("knowledge_y", plainInfo "knowledge_y")]

/-- Zeroed counters for `routeParticipants` (both available). -/
def routeCounters : List (String × Nat) := [("people_x", 0), ("knowledge_y", 0)]

/-- Saturated counters for `routeParticipants` (both at their limit 3). -/
def saturatedCounters : List (String × Nat) := [("people_x", 3), ("knowledge_y", 3)]

/-- A fresh single-participant session. -/
def soloState : ChatState := ⟨[("a", plainInfo "a")], [], none, 0, [("a", 0)], false⟩

/-- `soloState` with the `conversation_active` flag raised, as it is
inside the turn loop. -/
def activeSolo : ChatState := ⟨[("a", plainInfo "a")], [], none, 0, [("a", 0)], true⟩

/-- A session whose turn budget is already exhausted
(`turn_count = 1 = max_turns` of `tightConfig`). -/
def exhaustedState : ChatState := ⟨[("a", plainInfo "a")], [], none, 1, [("a", 1)], false⟩

/-- Configuration with `max_turns = 3`. -/
def soloConfig : GroupChatConfig := ⟨"g", 3, "TERMINATE", true⟩

/-- Configuration with `max_turns = 1`. -/
def tightConfig : GroupChatConfig := ⟨"g", 1, "TERMINATE", true⟩

/-- Registry whose only agent `"a"` always raises. -/
def failingRegistry : Registry :=
  fun n => if n == "a" then some ⟨fun _ _ _ => Except.error "boom"⟩ else none

/-- Registry whose only agent `"a"` replies with a fixed string. -/
def echoRegistry : Registry :=
  fun n => if n == "a" then some ⟨fun _ _ _ => Except.ok ⟨"reply", "a", []⟩⟩ else none

/-- Registry that resolves no name at all. -/
def emptyRegistry : Registry := fun _ => none

/-- Two-participant session for the broadcast isolation test. -/
def broadcastState : ChatState :=
  ⟨[("p1", plainInfo "p1"), ("p2", plainInfo "p2")], [], none, 0,
   [("p1", 0), ("p2", 0)], false⟩

/-- Registry of the broadcast isolation test: `p1` replies with a fixed
marker, `p2` reports whether the history it receives already contains
`p1`'s fresh reply from the same broadcast round. -/
def probeRegistry : Registry := fun n =>
  if n == "p1" then some ⟨fun _ _ _ => Except.ok ⟨"REPLY_ONE", "p1", []⟩⟩
  else if n == "p2" then
    some ⟨fun _ h _ => Except.ok
      ⟨cond (h.any (fun m => m.content == "REPLY_ONE")) "SAW_P1_REPLY" "CLEAN", "p2", []⟩⟩
  else none

/-! ### Claim theorems -/

/-- C7: with `"people_x"` and `"knowledge_y"` both available, the
selector applied to "Who is the manager of the Sales team?" returns
`"people_x"` with the LLM-routing branch never entered, for every
routing oracle and every current speaker. -/
theorem keyword_short_circuit (llm : Option RoutingOracle) (cs : Option String) :
    selectNextSpeaker routeParticipants routeCounters llm
      "Who is the manager of the Sales team?" cs =
      Except.ok ⟨"people_x", routeCounters, false⟩ := rfl

/-- C9: `reset_conversation` empties the history, zeroes the turn count
and every consecutive-turn counter, clears the current speaker and the
active flag, and leaves the participant directory untouched. -/
theorem reset_clears_transient (st : ChatState) :
    (resetConversation st).conversationHistory = [] ∧
    (resetConversation st).turnCount = 0 ∧
    (resetConversation st).currentSpeaker = none ∧
    (∀ n, countersGet (resetConversation st).consecutiveTurns n = 0) ∧
    (resetConversation st).conversationActive = false ∧
    (resetConversation st).participants = st.participants :=
  ⟨rfl, rfl, rfl, fun n => countersGet_zeroed st.participants n, rfl, rfl⟩

/-- C1 counterexample: two broadcast calls against a `max_turns = 1`
configuration leave `turn_count = 2 > max_turns`, so `turn_count` can
exceed `max_turns` after a broadcast call. -/
theorem turn_budget_counterexample :
    (runBroadcast tightConfig emptyRegistry
        (runBroadcast tightConfig emptyRegistry soloState "x").2 "x").2.turnCount = 2 ∧
      tightConfig.maxTurns = 1 :=
  ⟨rfl, rfl⟩

/-- C1 amended: `send` returns at most `max_turns` responses, and after
a `send` call `turn_count` does not exceed the larger of its entry value
and `max_turns` (broadcast, by contrast, increments `turn_count`
unconditionally and can push it past `max_turns`). -/
theorem turn_budget_send_amended (cfg : GroupChatConfig) (registry : Registry)
    (llm : Option RoutingOracle) (st : ChatState) (message : String) (sender : Option String)
    (r : List AgentResponse) (st' : ChatState)
    (h : sendMessage cfg registry llm st message sender = Except.ok (r, st')) :
    r.length ≤ cfg.maxTurns ∧ st'.turnCount ≤ max st.turnCount cfg.maxTurns := by
  unfold sendMessage at h
  split at h
  · exact Except.noConfusion h
  · rw [Except.ok.injEq, Prod.mk.injEq] at h
    rcases h with ⟨hr, hst⟩
    constructor
    · rw [← hr]
      refine le_trans (sendLoop_length_le cfg registry llm cfg.maxTurns _ message []) ?_
      simp
    · rw [← hst]
      exact sendLoop_turnCount_le cfg registry llm cfg.maxTurns _ message []

/-- C1 amended, witness at a concrete run. -/
theorem turn_budget_send_amended_witness :
    (runSend soloConfig echoRegistry none soloState "hi").1.length ≤ soloConfig.maxTurns ∧
      (runSend soloConfig echoRegistry none soloState "hi").2.turnCount ≤
        max soloState.turnCount soloConfig.maxTurns :=
  turn_budget_send_amended soloConfig echoRegistry none soloState "hi" none _ _ rfl

/-- C3 (failing input for the history-isolation clause): in one
broadcast call with two active participants, `p2`'s reply shows that the
history handed to it already contained `p1`'s fresh reply from the same
round; the response count and single turn-count increment behave as
documented. -/
theorem broadcast_history_leak :
    ((runBroadcast tightConfig probeRegistry broadcastState "hi").1.map
        (fun r => r.content)) = ["REPLY_ONE", "SAW_P1_REPLY"] ∧
    (runBroadcast tightConfig probeRegistry broadcastState "hi").1.length = 2 ∧
    (runBroadcast tightConfig probeRegistry broadcastState "hi").2.turnCount =
      broadcastState.turnCount + 1 :=
  ⟨rfl, rfl, rfl⟩

theorem sendMessage_eq (cfg : GroupChatConfig) (registry : Registry)
    (llm : Option RoutingOracle) (st : ChatState) (message : String) (sender : Option String)
    (hp : st.participants.isEmpty = false) :
    sendMessage cfg registry llm st message sender =
      Except.ok
        ((sendLoop cfg registry llm cfg.maxTurns (sendEntry cfg st message sender) message []).1,
         { (sendLoop cfg registry llm cfg.maxTurns (sendEntry cfg st message sender) message []).2
            with conversationActive := false }) := by
  unfold sendMessage
  rw [if_neg]
  intro hc
  rw [hp] at hc
  exact Bool.noConfusion hc

/-- The state after the bookkeeping of one loop iteration for the chosen
speaker (`turn_count` increment, `current_speaker`, counter update). -/
def afterSelection (st : ChatState) (sel : SelectionResult) : ChatState :=
  { st with
    turnCount := st.turnCount + 1,
    currentSpeaker := some sel.speaker,
    consecutiveTurns := updateCounters sel.counters sel.speaker }

theorem sendLoop_step_error (cfg : GroupChatConfig) (registry : Registry)
    (llm : Option RoutingOracle) (fuel : Nat) (st : ChatState) (m : String)
    (acc : List AgentResponse) (sel : SelectionResult) (agent : Agent) (e : String)
    (hact : st.conversationActive = true)
    (htc : st.turnCount < cfg.maxTurns)
    (hsel : selectNextSpeaker st.participants st.consecutiveTurns llm m st.currentSpeaker =
      Except.ok sel)
    (hreg : registry sel.speaker = some agent)
    (hproc : agent.processMessage m st.conversationHistory
      (turnMetadata cfg st.participants sel.speaker (st.turnCount + 1)) = Except.error e) :
    sendLoop cfg registry llm (fuel + 1) st m acc =
      (acc ++ [groupChatErrorResponse e], afterSelection st sel) := by
  simp only [sendLoop]
  rw [if_pos ⟨htc, hact⟩]
  simp only [hsel, hreg, hproc]
  rfl

theorem sendLoop_step_ok (cfg : GroupChatConfig) (registry : Registry)
    (llm : Option RoutingOracle) (fuel : Nat) (st : ChatState) (m : String)
    (acc : List AgentResponse) (sel : SelectionResult) (agent : Agent) (resp : AgentResponse)
    (hact : st.conversationActive = true)
    (htc : st.turnCount < cfg.maxTurns)
    (hsel : selectNextSpeaker st.participants st.consecutiveTurns llm m st.currentSpeaker =
      Except.ok sel)
    (hreg : registry sel.speaker = some agent)
    (hproc : agent.processMessage m st.conversationHistory
      (turnMetadata cfg st.participants sel.speaker (st.turnCount + 1)) = Except.ok resp) :
    sendLoop cfg registry llm (fuel + 1) st m acc =
      if shouldTerminate cfg (st.turnCount + 1) resp.content then
        (acc ++ [loopResponse cfg st.participants sel.speaker (st.turnCount + 1) resp],
         { afterSelection st sel with
            conversationHistory := st.conversationHistory ++
              [assistantMessage sel.speaker (st.turnCount + 1) resp.content],
            conversationActive := false })
      else
        sendLoop cfg registry llm fuel
          { afterSelection st sel with
            conversationHistory := st.conversationHistory ++
              [assistantMessage sel.speaker (st.turnCount + 1) resp.content] }
          resp.content
          (acc ++ [loopResponse cfg st.participants sel.speaker (st.turnCount + 1) resp]) := by
  simp only [sendLoop]
  rw [if_pos ⟨htc, hact⟩]
  simp only [hsel, hreg, hproc]
  rfl

/-- C4 counterexample: with the turn budget already exhausted at entry
(`turn_count = max_turns = 1`) and a resolvable participant present,
`send` succeeds with an empty response list. -/
theorem send_empty_counterexample :
    sendMessage tightConfig echoRegistry none exhaustedState "hi" none =
      Except.ok ([], { exhaustedState with
        conversationHistory := [userMessage tightConfig "hi" none],
        conversationActive := false }) ∧
    exhaustedState.participants ≠ [] :=
  ⟨rfl, by decide⟩

/-- C4 amended: a `send` call on a session with participants returns a
non-empty response list whenever the turn budget is not yet exhausted at
entry and the first selected speaker resolves in the registry; with the
budget exhausted at entry, or with every selected agent missing from the
registry, `send` returns an empty list without raising. -/
theorem send_nonempty_amended (cfg : GroupChatConfig) (registry : Registry)
    (llm : Option RoutingOracle) (st : ChatState) (message : String) (sender : Option String)
    (sel : SelectionResult) (agent : Agent)
    (hp : st.participants.isEmpty = false)
    (htc : st.turnCount < cfg.maxTurns)
    (hsel : selectNextSpeaker st.participants st.consecutiveTurns llm message
      st.currentSpeaker = Except.ok sel)
    (hreg : registry sel.speaker = some agent) :
    ∃ r st', sendMessage cfg registry llm st message sender = Except.ok (r, st') ∧ r ≠ [] := by
  rw [sendMessage_eq cfg registry llm st message sender hp]
  refine ⟨_, _, rfl, ?_⟩
  obtain ⟨fuel, hfuel⟩ : ∃ k, cfg.maxTurns = k + 1 := ⟨cfg.maxTurns - 1, by omega⟩
  rw [hfuel]
  have hact : (sendEntry cfg st message sender).conversationActive = true := rfl
  have htc' : (sendEntry cfg st message sender).turnCount < cfg.maxTurns := htc
  have hsel' : selectNextSpeaker (sendEntry cfg st message sender).participants
      (sendEntry cfg st message sender).consecutiveTurns llm message
      (sendEntry cfg st message sender).currentSpeaker = Except.ok sel := hsel
  cases hproc : agent.processMessage message (sendEntry cfg st message sender).conversationHistory
      (turnMetadata cfg (sendEntry cfg st message sender).participants sel.speaker
        ((sendEntry cfg st message sender).turnCount + 1)) with
  | error e =>
      rw [sendLoop_step_error cfg registry llm fuel _ message [] sel agent e hact htc' hsel' hreg hproc]
      simp
  | ok resp =>
      rw [sendLoop_step_ok cfg registry llm fuel _ message [] sel agent resp hact htc' hsel' hreg hproc]
      split
      · simp
      · refine List.length_pos.mp ?_
        exact lt_of_lt_of_le (by simp) (sendLoop_acc_le cfg registry llm fuel _ _ _)

/-- C4 amended, witness at a concrete run. -/
theorem send_nonempty_amended_witness :
    ∃ r st', sendMessage soloConfig echoRegistry none soloState "hi" none =
      Except.ok (r, st') ∧ r ≠ [] :=
  send_nonempty_amended soloConfig echoRegistry none soloState "hi" none
    ⟨"a", [("a", 0)], false⟩ ⟨fun _ _ _ => Except.ok ⟨"reply", "a", []⟩⟩
    rfl (by decide) rfl rfl

/-- C2 counterexample: after the agent of turn 1 fails, `send` returns
the synthesized error response and stops, but the conversation history
holds only the (unmarked) user message — no error-marked message is
appended to the history, contrary to the claim. -/
theorem agent_error_history_counterexample :
    sendMessage soloConfig failingRegistry none soloState "hi" none =
      Except.ok ([groupChatErrorResponse "boom"],
        { soloState with
          conversationHistory := [userMessage soloConfig "hi" none],
          turnCount := 1,
          currentSpeaker := some "a",
          consecutiveTurns := [("a", 1)],
          conversationActive := false }) ∧
    metaGet (userMessage soloConfig "hi" none).metadata "error" = none :=
  ⟨rfl, rfl⟩

/-- C2 amended: when the agent invoked on a turn fails, the loop appends
exactly one synthesized error response carrying the error text and stops
(no recursion; the turn counter advances once and no message is added to
the history), and every successful `send` call ends with
`conversation_active = false`; the list returned by the stopped loop is
the accumulated responses plus the error response, so its length is the
turn number whenever every earlier turn contributed one response. -/
theorem agent_error_stop_amended :
    (∀ (cfg : GroupChatConfig) (registry : Registry) (llm : Option RoutingOracle)
        (fuel : Nat) (st : ChatState) (m : String) (acc : List AgentResponse)
        (sel : SelectionResult) (agent : Agent) (e : String),
        st.conversationActive = true →
        st.turnCount < cfg.maxTurns →
        selectNextSpeaker st.participants st.consecutiveTurns llm m st.currentSpeaker =
          Except.ok sel →
        registry sel.speaker = some agent →
        agent.processMessage m st.conversationHistory
          (turnMetadata cfg st.participants sel.speaker (st.turnCount + 1)) = Except.error e →
        sendLoop cfg registry llm (fuel + 1) st m acc =
          (acc ++ [groupChatErrorResponse e], afterSelection st sel)) ∧
    (∀ (cfg : GroupChatConfig) (registry : Registry) (llm : Option RoutingOracle)
        (st : ChatState) (message : String) (sender : Option String)
        (r : List AgentResponse) (st' : ChatState),
        sendMessage cfg registry llm st message sender = Except.ok (r, st') →
        st'.conversationActive = false) := by
  constructor
  · exact sendLoop_step_error
  · intro cfg registry llm st message sender r st' h
    unfold sendMessage at h
    split at h
    · exact Except.noConfusion h
    · rw [Except.ok.injEq, Prod.mk.injEq] at h
      rw [← h.2]

/-- C2 amended, witness at a concrete failing agent. -/
theorem agent_error_stop_amended_witness :
    sendLoop soloConfig failingRegistry none 1 activeSolo "hi" [] =
      ([groupChatErrorResponse "boom"], afterSelection activeSolo ⟨"a", [("a", 0)], false⟩) ∧
    (runSend soloConfig failingRegistry none soloState "hi").2.conversationActive = false :=
  ⟨agent_error_stop_amended.1 soloConfig failingRegistry none 0 activeSolo "hi" []
      ⟨"a", [("a", 0)], false⟩ ⟨fun _ _ _ => Except.error "boom"⟩ "boom"
      rfl (by decide) rfl rfl rfl,
   agent_error_stop_amended.2 soloConfig failingRegistry none soloState "hi" none _ _ rfl⟩

/-- C6: whenever keyword termination is enabled and a reply contains the
configured keyword case-insensitively, `_should_terminate` answers true
at every turn count, and the loop iteration producing that reply
collects it, appends it to the history, clears `conversation_active` and
stops — even though `turn_count < max_turns` held when the turn began. -/
theorem termination_by_keyword :
    (∀ (cfg : GroupChatConfig) (tc : Nat) (reply : String),
        cfg.enableTerminationKeyword = true →
        strContains (strLower reply) (strLower cfg.terminationKeyword) = true →
        shouldTerminate cfg tc reply = true) ∧
    (∀ (cfg : GroupChatConfig) (registry : Registry) (llm : Option RoutingOracle)
        (fuel : Nat) (st : ChatState) (m : String) (acc : List AgentResponse)
        (sel : SelectionResult) (agent : Agent) (resp : AgentResponse),
        cfg.enableTerminationKeyword = true →
        st.conversationActive = true →
        st.turnCount < cfg.maxTurns →
        selectNextSpeaker st.participants st.consecutiveTurns llm m st.currentSpeaker =
          Except.ok sel →
        registry sel.speaker = some agent →
        agent.processMessage m st.conversationHistory
          (turnMetadata cfg st.participants sel.speaker (st.turnCount + 1)) = Except.ok resp →
        strContains (strLower resp.content) (strLower cfg.terminationKeyword) = true →
        sendLoop cfg registry llm (fuel + 1) st m acc =
          (acc ++ [loopResponse cfg st.participants sel.speaker (st.turnCount + 1) resp],
           { afterSelection st sel with
              conversationHistory := st.conversationHistory ++
                [assistantMessage sel.speaker (st.turnCount + 1) resp.content],
              conversationActive := false })) := by
  have hterm : ∀ (cfg : GroupChatConfig) (tc : Nat) (reply : String),
      cfg.enableTerminationKeyword = true →
      strContains (strLower reply) (strLower cfg.terminationKeyword) = true →
      shouldTerminate cfg tc reply = true := by
    intro cfg tc reply he hc
    unfold shouldTerminate
    rw [he]
    split
    · rfl
    · simpa using hc
  refine ⟨hterm, ?_⟩
  intro cfg registry llm fuel st m acc sel agent resp he hact htc hsel hreg hproc hcont
  rw [sendLoop_step_ok cfg registry llm fuel st m acc sel agent resp hact htc hsel hreg hproc]
  rw [if_pos (hterm cfg (st.turnCount + 1) resp.content he hcont)]

/-- Configuration of the termination-keyword example
(`termination_keyword = "DONE"`, `max_turns = 5`). -/
def doneConfig : GroupChatConfig := ⟨"g", 5, "DONE", true⟩

/-- Registry whose only agent `"a"` replies with text containing the
termination keyword. -/
def doneRegistry : Registry :=
  fun n => if n == "a" then
    some ⟨fun _ _ _ => Except.ok ⟨"task is DONE now", "a", []⟩⟩ else none

/-- C6 witness: the reply "task is DONE now" terminates turn 1 although
four more turns of budget remain. -/
theorem termination_by_keyword_witness :
    shouldTerminate doneConfig 1 "task is DONE now" = true ∧
    sendLoop doneConfig doneRegistry none 4 activeSolo "hi" [] =
      ([loopResponse doneConfig activeSolo.participants "a" 1 ⟨"task is DONE now", "a", []⟩],
       { afterSelection activeSolo ⟨"a", [("a", 0)], false⟩ with
          conversationHistory := activeSolo.conversationHistory ++
            [assistantMessage "a" 1 "task is DONE now"],
          conversationActive := false }) :=
  ⟨termination_by_keyword.1 doneConfig 1 "task is DONE now" rfl (by decide),
   termination_by_keyword.2 doneConfig doneRegistry none 3 activeSolo "hi" []
      ⟨"a", [("a", 0)], false⟩ ⟨fun _ _ _ => Except.ok ⟨"task is DONE now", "a", []⟩⟩
      ⟨"task is DONE now", "a", []⟩ rfl rfl (by decide) rfl rfl rfl (by decide)⟩

/-- C10: selecting a speaker increments exactly that speaker's counter
(when the speaker has an entry) and zeroes every other counter, so after
any successful `send` call at most the current speaker's counter is
nonzero, provided the invariant held at entry (it holds for every
freshly built directory, whose counters are all zero). -/
theorem consecutive_counter_exclusivity :
    (∀ (counters : List (String × Nat)) (speaker n : String), n ≠ speaker →
        countersGet (updateCounters counters speaker) n = 0) ∧
    (∀ (counters : List (String × Nat)) (speaker : String) (v : Nat),
        assocGet counters speaker = some v →
        countersGet (updateCounters counters speaker) speaker = v + 1) ∧
    (∀ (cfg : GroupChatConfig) (registry : Registry) (llm : Option RoutingOracle)
        (st : ChatState) (message : String) (sender : Option String)
        (r : List AgentResponse) (st' : ChatState),
        speakerExclusive st →
        sendMessage cfg registry llm st message sender = Except.ok (r, st') →
        speakerExclusive st') := by
  refine ⟨countersGet_update_other, countersGet_update_self, ?_⟩
  intro cfg registry llm st message sender r st' hex h
  unfold sendMessage at h
  split at h
  · exact Except.noConfusion h
  · rw [Except.ok.injEq, Prod.mk.injEq] at h
    rw [← h.2]
    exact sendLoop_exclusive cfg registry llm cfg.maxTurns _ message [] hex

/-- C10 witness: a concrete run preserves the exclusivity invariant. -/
theorem consecutive_counter_exclusivity_witness :
    speakerExclusive (runSend soloConfig echoRegistry none soloState "hi").2 :=
  consecutive_counter_exclusivity.2.2 soloConfig echoRegistry none soloState "hi" none _ _
    (fun n _ => by
      show countersGet [("a", 0)] n = 0
      unfold countersGet assocGet
      split <;> rfl)
    rfl

/-- C5: when every active participant's consecutive-turn counter has
reached its limit, speaker selection still succeeds: it resets all
active participants' counters to zero (treating all of them as
available) and returns an active participant's name; selection raises
exactly when there is no active participant at all. -/
theorem selection_no_deadlock :
    (∀ (participants : List (String × GroupChatParticipantInfo))
        (counters : List (String × Nat)) (llm : Option RoutingOracle)
        (message : String) (cs : Option String),
        activeParticipants participants ≠ [] →
        (∀ n ∈ activeParticipants participants,
          maxConsecOf participants n ≤ countersGet counters n) →
        ∃ sel, selectNextSpeaker participants counters llm message cs = Except.ok sel ∧
          sel.speaker ∈ activeParticipants participants ∧
          sel.counters = resetActiveCounters counters (activeParticipants participants) ∧
          (∀ n ∈ activeParticipants participants, countersGet sel.counters n = 0)) ∧
    (∀ (participants : List (String × GroupChatParticipantInfo))
        (counters : List (String × Nat)) (llm : Option RoutingOracle)
        (message : String) (cs : Option String),
        (∃ e, selectNextSpeaker participants counters llm message cs = Except.error e) ↔
          activeParticipants participants = []) := by
  constructor
  · intro participants counters llm message cs hne hsat
    refine ⟨_, selectNextSpeaker_saturated participants counters llm message cs hne hsat,
      ?_, ?_, ?_⟩
    · exact selectFrom_speaker_mem _ _ _ _ _ _ hne
    · exact selectFrom_counters _ _ _ _ _ _
    · intro n hn
      rw [selectFrom_counters]
      exact countersGet_reset_zero counters _ n hn
  · exact selectNextSpeaker_error_iff

/-- C5 witness: both participants saturated at their limit of 3. -/
theorem selection_no_deadlock_witness :
    ∃ sel, selectNextSpeaker routeParticipants saturatedCounters none "hello" none =
        Except.ok sel ∧
      sel.speaker ∈ activeParticipants routeParticipants ∧
      sel.counters = resetActiveCounters saturatedCounters
        (activeParticipants routeParticipants) ∧
      (∀ n ∈ activeParticipants routeParticipants, countersGet sel.counters n = 0) :=
  selection_no_deadlock.1 routeParticipants saturatedCounters none "hello" none
    (by decide) (by decide)

/-! ### Lemmas about the summarizer -/

theorem summaryTemplate_ne_empty (header : String) (hh : header.data ≠ [])
    (st : ChatState) (transcript : String) :
    summaryTemplate header st transcript ≠ "" := by
  intro h
  have hd := congrArg String.data h
  unfold summaryTemplate at hd
  rw [String.data_append] at hd
  exact hh (List.append_eq_nil.mp hd).1

theorem summaryTemplate_contains_name (header : String) (st : ChatState)
    (transcript : String) (p : String × GroupChatParticipantInfo)
    (hp : p ∈ st.participants) :
    strContains (summaryTemplate header st transcript) p.1 = true := by
  unfold summaryTemplate
  refine strContains_append_right _ _ _ ?_
  refine strContains_append_right _ _ _ ?_
  refine strContains_append_left _ _ _ ?_
  exact joinSep_contains ", " _ p.1 (List.mem_map_of_mem (fun q => q.1) hp)

theorem summaryTemplate_contains_turns (header : String) (st : ChatState)
    (transcript : String) :
    strContains (summaryTemplate header st transcript) (toString st.turnCount) = true := by
  unfold summaryTemplate
  refine strContains_append_right _ _ _ ?_
  refine strContains_append_right _ _ _ ?_
  refine strContains_append_right _ _ _ ?_
  refine strContains_append_right _ _ _ ?_
  refine strContains_append_right _ _ _ ?_
  refine strContains_append_left _ _ _ ?_
  exact strContains_self _

/-- C8: with no summarizing or routing model configured, `summarize` on
a non-empty history returns a non-empty string containing every
configured participant name and the current turn count, and cannot
raise; when a model is configured but fails, the exception is downgraded
to the fallback template with the same guarantees instead of being
surfaced. -/
theorem summarizer_fallback (st : ChatState) (maxMessages charLimit : Nat)
    (h : st.conversationHistory ≠ []) :
    (generateSummary st none maxMessages charLimit ≠ "" ∧
     (∀ p ∈ st.participants,
        strContains (generateSummary st none maxMessages charLimit) p.1 = true) ∧
     strContains (generateSummary st none maxMessages charLimit)
        (toString st.turnCount) = true) ∧
    (∀ f : String → Except String String, (∀ x, ∃ e, f x = Except.error e) →
      generateSummary st (some f) maxMessages charLimit ≠ "" ∧
      (∀ p ∈ st.participants,
        strContains (generateSummary st (some f) maxMessages charLimit) p.1 = true) ∧
      strContains (generateSummary st (some f) maxMessages charLimit)
        (toString st.turnCount) = true) := by
  have hne : ¬ (st.conversationHistory.isEmpty = true) := by simp [h]
  have hnone : generateSummary st none maxMessages charLimit =
      summaryTemplate "Conversation Summary (heuristic)\n" st
        (joinSep "\n" (transcriptLinesFrom charLimit
          (lastN maxMessages st.conversationHistory) 0)) := by
    unfold generateSummary
    rw [if_neg hne]
  constructor
  · rw [hnone]
    exact ⟨summaryTemplate_ne_empty _ (by decide) st _,
      fun p hp => summaryTemplate_contains_name _ st _ p hp,
      summaryTemplate_contains_turns _ st _⟩
  · intro f hf
    obtain ⟨e, he⟩ := hf (joinSep "\n" (transcriptLinesFrom charLimit
      (lastN maxMessages st.conversationHistory) 0))
    have hsome : generateSummary st (some f) maxMessages charLimit =
        summaryTemplate "Conversation Summary (fallback)\n" st
          (joinSep "\n" (transcriptLinesFrom charLimit
            (lastN maxMessages st.conversationHistory) 0)) := by
      unfold generateSummary
      rw [if_neg hne]
      simp only [he]
    rw [hsome]
    exact ⟨summaryTemplate_ne_empty _ (by decide) st _,
      fun p hp => summaryTemplate_contains_name _ st _ p hp,
      summaryTemplate_contains_turns _ st _⟩

/-- Non-empty-history session for the summarizer witness. -/
def summaryState : ChatState :=
  ⟨[("p1", plainInfo "p1"), ("p2", plainInfo "p2")],
   [⟨MessageRole.user, "hello", [("sender", "User")]⟩], none, 4,
   [("p1", 0), ("p2", 0)], false⟩

/-- C8 witness at a concrete session with two participants and four
turns taken. -/
theorem summarizer_fallback_witness :
    generateSummary summaryState none 120 6000 ≠ "" ∧
    strContains (generateSummary summaryState none 120 6000) "p1" = true ∧
    strContains (generateSummary summaryState none 120 6000) "p2" = true ∧
    strContains (generateSummary summaryState none 120 6000)
      (toString summaryState.turnCount) = true :=
  ⟨(summarizer_fallback summaryState 120 6000 (by decide)).1.1,
   (summarizer_fallback summaryState 120 6000 (by decide)).1.2.1 ("p1", plainInfo "p1") (by decide),
   (summarizer_fallback summaryState 120 6000 (by decide)).1.2.1 ("p2", plainInfo "p2") (by decide),
   (summarizer_fallback summaryState 120 6000 (by decide)).1.2.2⟩

/-- C7 witness: the short-circuit instantiated without any routing
oracle and without a current speaker. -/
theorem keyword_short_circuit_witness :
    selectNextSpeaker routeParticipants routeCounters none
      "Who is the manager of the Sales team?" none =
      Except.ok ⟨"people_x", routeCounters, false⟩ :=
  keyword_short_circuit none none

/-- C9 witness: reset of a concrete mid-conversation session. -/
theorem reset_clears_transient_witness :
    (resetConversation summaryState).conversationHistory = [] ∧
    (resetConversation summaryState).turnCount = 0 ∧
    (resetConversation summaryState).currentSpeaker = none ∧
    countersGet (resetConversation summaryState).consecutiveTurns "p1" = 0 ∧
    (resetConversation summaryState).conversationActive = false ∧
    (resetConversation summaryState).participants = summaryState.participants :=
  ⟨(reset_clears_transient summaryState).1,
   (reset_clears_transient summaryState).2.1,
   (reset_clears_transient summaryState).2.2.1,
   (reset_clears_transient summaryState).2.2.2.1 "p1",
   (reset_clears_transient summaryState).2.2.2.2.1,
   (reset_clears_transient summaryState).2.2.2.2.2⟩
